import Mathlib

/-!
Shallow embedding of the ConfidentialCast contract (Solidity, fhevm).

Encrypted values (euint64, euint8, ebool) are modelled by their decrypted
plaintexts: euint64 as a natural number below 2^64, euint8 as a natural
number below 2^8, ebool as Bool.  FHE.add on euint64 is addition modulo
2^64 (fhevm arithmetic wraps), FHE.gt / FHE.lt / FHE.eq are the ordinary
comparisons of the plaintexts, FHE.select is an if-then-else on the
plaintext condition.  Storage mappings become total functions with the
zero default that Solidity mappings have.  A reverting call is an
Except.error carrying the custom error; since a revert rolls the whole
transaction back, an error result produces no successor state at all.
-/

namespace ConfidentialCast

/-- Seconds in one day: Solidity literal 1 days. -/
def secondsPerDay : Nat := 86400

/-- Modulus of uint64 / euint64 arithmetic. -/
def U64 : Nat := 2 ^ 64

/-- struct Prediction: price and direction hold the decrypted plaintexts of
the stored euint64 / euint8 ciphertexts. -/
structure Prediction where
  price : Nat
  direction : Nat
  stake : Nat
  submittedAt : Nat
  claimed : Bool
deriving Repr, DecidableEq

/-- struct DailyPrice. -/
structure DailyPrice where
  price : Nat
  timestamp : Nat
deriving Repr, DecidableEq

/-- The contract storage: scalars owner and lastPriceDay, and the four
mappings, modelled as total functions with Solidity zero defaults. -/
structure State where
  owner : Nat
  lastPriceDay : Nat
  dailyPrices : Nat → DailyPrice
  predictions : Nat → Nat → Prediction
  points : Nat → Nat
  lastResult : Nat → Bool

/-- The contract custom errors. -/
inductive Err where
  | OnlyOwner
  | InvalidOwner
  | PriceAlreadyUpdated
  | InvalidPrice
  | StakeRequired
  | StakeTooLarge
  | PredictionExists
  | PredictionMissing
  | PredictionAlreadyClaimed
  | ConfirmationTooEarly
  | PriceNotAvailable
deriving Repr, DecidableEq

/-- constructor(): owner := msg.sender; every mapping starts zeroed. -/
def initState (deployer : Nat) : State where
  owner := deployer
  lastPriceDay := 0
  dailyPrices := fun _ => { price := 0, timestamp := 0 }
  predictions := fun _ _ => { price := 0, direction := 0, stake := 0, submittedAt := 0, claimed := false }
  points := fun _ => 0
  lastResult := fun _ => false

/-- getCurrentDay(): block.timestamp / 1 days. -/
def getCurrentDay (timestamp : Nat) : Nat :=
  timestamp / secondsPerDay

/-- transferOwnership(newOwner), with the onlyOwner modifier inlined as its
first check.  Accounts are naturals; address(0) is 0. -/
def transferOwnership (st : State) (sender newOwner : Nat) : Except Err State :=
  if sender ≠ st.owner then .error .OnlyOwner
  else if newOwner = 0 then .error .InvalidOwner
  else .ok { st with owner := newOwner }

/-- updateDailyPrice(price), with the onlyOwner modifier inlined; the local
variable day of the source is inlined as getCurrentDay timestamp. -/
def updateDailyPrice (st : State) (sender timestamp price : Nat) : Except Err State :=
  if sender ≠ st.owner then .error .OnlyOwner
  else if price = 0 then .error .InvalidPrice
  else if getCurrentDay timestamp ≤ st.lastPriceDay then .error .PriceAlreadyUpdated
  else .ok { st with
    dailyPrices := fun d =>
      if d = getCurrentDay timestamp then { price := price, timestamp := timestamp }
      else st.dailyPrices d,
    lastPriceDay := getCurrentDay timestamp }

/-- submitPrediction(predictedPriceInput, directionInput, inputProof).
value is msg.value; predictedPrice and direction are the plaintexts behind
the external encrypted inputs (FHE.fromExternal with a valid proof).  The
FHE.allow access grants have no effect on contract storage and are not
modelled. -/
def submitPrediction (st : State) (sender value timestamp predictedPrice direction : Nat) :
    Except Err State :=
  if value = 0 then .error .StakeRequired
  else if value > U64 - 1 then .error .StakeTooLarge
  else if (st.predictions sender (getCurrentDay timestamp)).stake ≠ 0 then .error .PredictionExists
  else .ok { st with
    predictions := fun a d =>
      if a = sender ∧ d = getCurrentDay timestamp then
        { price := predictedPrice, direction := direction, stake := value,
          submittedAt := timestamp, claimed := false }
      else st.predictions a d }

/-- Source function underscore-checkPrediction: the oblivious win predicate, on
plaintexts.  FHE.gt, FHE.lt compare the daily price with the prediction
target; FHE.eq compares the direction byte with 1 and 2. -/
def checkPrediction (p : Prediction) (price : Nat) : Bool :=
  let isGreater := decide (p.price < price)
  let isLess := decide (price < p.price)
  let wantsGreater := decide (p.direction = 1)
  let wantsLess := decide (p.direction = 2)
  (wantsGreater && isGreater) || (wantsLess && isLess)

/-- Source function underscore-calculateReward: FHE.select(didWin, stake, 0). -/
def calculateReward (stake : Nat) (didWin : Bool) : Nat :=
  if didWin then stake else 0

/-- confirmPrediction(day).  The storage reference prediction of the source
is inlined as st.predictions sender day; FHE.add on the euint64 points
balance wraps modulo 2^64. -/
def confirmPrediction (st : State) (sender timestamp day : Nat) : Except Err State :=
  if (st.predictions sender day).stake = 0 then .error .PredictionMissing
  else if (st.predictions sender day).claimed then .error .PredictionAlreadyClaimed
  else if day ≥ getCurrentDay timestamp then .error .ConfirmationTooEarly
  else if (st.dailyPrices day).timestamp = 0 then .error .PriceNotAvailable
  else .ok { st with
    points := fun a =>
      if a = sender then
        (st.points sender +
          calculateReward (st.predictions sender day).stake
            (checkPrediction (st.predictions sender day) (st.dailyPrices day).price)) % U64
      else st.points a,
    lastResult := fun a =>
      if a = sender then
        checkPrediction (st.predictions sender day) (st.dailyPrices day).price
      else st.lastResult a,
    predictions := fun a d =>
      if a = sender ∧ d = day then { st.predictions sender day with claimed := true }
      else st.predictions a d }

/-- One state-mutating external invocation of the contract, with arbitrary
caller, call data and block timestamp. -/
inductive Step : State → State → Prop where
  | transfer {st st' : State} (sender newOwner : Nat) :
      transferOwnership st sender newOwner = .ok st' → Step st st'
  | update {st st' : State} (sender timestamp price : Nat) :
      updateDailyPrice st sender timestamp price = .ok st' → Step st st'
  | submit {st st' : State} (sender value timestamp predictedPrice direction : Nat) :
      submitPrediction st sender value timestamp predictedPrice direction = .ok st' → Step st st'
  | confirm {st st' : State} (sender timestamp day : Nat) :
      confirmPrediction st sender timestamp day = .ok st' → Step st st'

/-- States reachable from deployment by some sequence of successful
invocations. -/
inductive Reachable (deployer : Nat) : State → Prop where
  | init : Reachable deployer (initState deployer)
  | step {st st' : State} : Reachable deployer st → Step st st' → Reachable deployer st'

/-- Extract the successor state of a successful invocation, with a fallback
for the error case. -/
def afterOk (r : Except Err State) (fallback : State) : State :=
  r.toOption.getD fallback

/-- Deployment by account 1. -/
def s0 : State := initState 1

/-- Day 1: the owner records price 10. -/
def s1 : State := afterOk (updateDailyPrice s0 1 86400 10) s0

/-- Day 1: account 2 stakes 2^64 - 1 on target 5, direction 1 (above). -/
def s2 : State := afterOk (submitPrediction s1 2 (U64 - 1) 86400 5 1) s1

/-- Day 2: account 2 confirms its day-1 forecast and wins. -/
def s3 : State := afterOk (confirmPrediction s2 2 172800 1) s2

/-- Day 2: the owner records price 10. -/
def s4 : State := afterOk (updateDailyPrice s3 1 172800 10) s3

/-- Day 2: account 2 stakes 2^64 - 1 again, target 5, direction 1. -/
def s5 : State := afterOk (submitPrediction s4 2 (U64 - 1) 172800 5 1) s4

/-- Day 3: account 2 confirms its day-2 forecast, wins, and its points
balance wraps modulo 2^64. -/
def s6 : State := afterOk (confirmPrediction s5 2 259200 2) s5

/-- A state holding an unclaimed forecast for account 2 at day 1 while no
daily price record exists at all. -/
def demoNoPrice : State := afterOk (submitPrediction s0 2 7 90000 5 1) s0

/-- A reachable state holding a day-0 forecast of account 2 with stake 7. -/
def demoDay0 : State := afterOk (submitPrediction s0 2 7 0 5 1) s0

/-- transferOwnership succeeds exactly for the owner with a nonzero new
owner, and then only reassigns owner. -/
lemma transferOwnership_ok_iff {st st' : State} {s n : Nat} :
    transferOwnership st s n = .ok st' ↔
      s = st.owner ∧ n ≠ 0 ∧ st' = { st with owner := n } := by
  unfold transferOwnership
  split
  · rename_i h
    exact ⟨fun hok => Except.noConfusion hok, fun ⟨h1, _, _⟩ => absurd h1 h⟩
  · rename_i h
    split
    · rename_i h2
      exact ⟨fun hok => Except.noConfusion hok, fun ⟨_, h2', _⟩ => absurd h2 h2'⟩
    · rename_i h2
      constructor
      · intro hok
        exact ⟨not_not.mp h, h2, ((Except.ok.injEq _ _).mp hok).symm⟩
      · rintro ⟨-, -, rfl⟩
        rfl

/-- updateDailyPrice succeeds exactly for the owner, with a nonzero price,
at a day strictly beyond lastPriceDay; it then writes the day record and
advances lastPriceDay. -/
lemma updateDailyPrice_ok_iff {st st' : State} {s ts pr : Nat} :
    updateDailyPrice st s ts pr = .ok st' ↔
      s = st.owner ∧ pr ≠ 0 ∧ st.lastPriceDay < getCurrentDay ts ∧
      st' = { st with
        dailyPrices := fun d =>
          if d = getCurrentDay ts then { price := pr, timestamp := ts }
          else st.dailyPrices d,
        lastPriceDay := getCurrentDay ts } := by
  unfold updateDailyPrice
  split
  · rename_i h
    exact ⟨fun hok => Except.noConfusion hok, fun ⟨h1, _, _, _⟩ => absurd h1 h⟩
  · rename_i h
    split
    · rename_i h2
      exact ⟨fun hok => Except.noConfusion hok, fun ⟨_, h2', _, _⟩ => absurd h2 h2'⟩
    · rename_i h2
      split
      · rename_i h3
        refine ⟨fun hok => Except.noConfusion hok, fun ⟨_, _, h3', _⟩ => absurd h3 ?_⟩
        omega
      · rename_i h3
        constructor
        · intro hok
          exact ⟨not_not.mp h, h2, by omega, ((Except.ok.injEq _ _).mp hok).symm⟩
        · rintro ⟨-, -, -, rfl⟩
          rfl

/-- submitPrediction succeeds exactly for a nonzero stake within uint64
range when no forecast with nonzero stake exists yet for (sender, current
day); it then writes the fresh unclaimed forecast. -/
lemma submitPrediction_ok_iff {st st' : State} {s v ts tgt dir : Nat} :
    submitPrediction st s v ts tgt dir = .ok st' ↔
      v ≠ 0 ∧ v ≤ U64 - 1 ∧ (st.predictions s (getCurrentDay ts)).stake = 0 ∧
      st' = { st with
        predictions := fun a d =>
          if a = s ∧ d = getCurrentDay ts then
            { price := tgt, direction := dir, stake := v,
              submittedAt := ts, claimed := false }
          else st.predictions a d } := by
  unfold submitPrediction
  split
  · rename_i h
    exact ⟨fun hok => Except.noConfusion hok, fun ⟨h1, _, _, _⟩ => absurd h h1⟩
  · rename_i h
    split
    · rename_i h2
      refine ⟨fun hok => Except.noConfusion hok, fun ⟨_, h2', _, _⟩ => ?_⟩
      omega
    · rename_i h2
      split
      · rename_i h3
        exact ⟨fun hok => Except.noConfusion hok, fun ⟨_, _, h3', _⟩ => absurd h3' h3⟩
      · rename_i h3
        constructor
        · intro hok
          exact ⟨h, by omega, not_not.mp h3, ((Except.ok.injEq _ _).mp hok).symm⟩
        · rintro ⟨-, -, -, rfl⟩
          rfl

/-- confirmPrediction succeeds exactly when a nonzero-stake unclaimed
forecast exists for (sender, day), the day lies strictly before the current
day and a daily price record exists; it then credits the oblivious reward
modulo 2^64, overwrites lastResult and marks the forecast claimed. -/
lemma confirmPrediction_ok_iff {st st' : State} {s ts day : Nat} :
    confirmPrediction st s ts day = .ok st' ↔
      (st.predictions s day).stake ≠ 0 ∧ (st.predictions s day).claimed = false ∧
      day < getCurrentDay ts ∧ (st.dailyPrices day).timestamp ≠ 0 ∧
      st' = { st with
        points := fun a =>
          if a = s then
            (st.points s +
              calculateReward (st.predictions s day).stake
                (checkPrediction (st.predictions s day) (st.dailyPrices day).price)) % U64
          else st.points a,
        lastResult := fun a =>
          if a = s then
            checkPrediction (st.predictions s day) (st.dailyPrices day).price
          else st.lastResult a,
        predictions := fun a d =>
          if a = s ∧ d = day then { st.predictions s day with claimed := true }
          else st.predictions a d } := by
  unfold confirmPrediction
  split
  · rename_i h
    exact ⟨fun hok => Except.noConfusion hok, fun ⟨h1, _, _, _, _⟩ => absurd h h1⟩
  · rename_i h
    split
    · rename_i h2
      refine ⟨fun hok => Except.noConfusion hok, fun ⟨_, h2', _, _, _⟩ => ?_⟩
      rw [h2'] at h2
      exact Bool.noConfusion h2
    · rename_i h2
      split
      · rename_i h3
        refine ⟨fun hok => Except.noConfusion hok, fun ⟨_, _, h3', _, _⟩ => ?_⟩
        omega
      · rename_i h3
        split
        · rename_i h4
          exact ⟨fun hok => Except.noConfusion hok, fun ⟨_, _, _, h4', _⟩ => absurd h4 h4'⟩
        · rename_i h4
          constructor
          · intro hok
            refine ⟨h, ?_, by omega, h4, ((Except.ok.injEq _ _).mp hok).symm⟩
            exact Bool.not_eq_true _ ▸ eq_false_of_ne_true h2
          · rintro ⟨-, -, -, -, rfl⟩
            rfl

/-- U64 is positive. -/
lemma U64_pos : 0 < U64 :=
  Nat.pos_pow_of_pos 64 (by norm_num)

/-- In every reachable state each points balance is a valid euint64 value,
below 2^64. -/
lemma reachable_points_lt {dep : Nat} {st : State} (h : Reachable dep st) :
    ∀ a, st.points a < U64 := by
  induction h with
  | init =>
    intro a
    simpa [initState] using U64_pos
  | step _ hs ih =>
    cases hs with
    | transfer s n hok =>
      obtain ⟨-, -, rfl⟩ := transferOwnership_ok_iff.mp hok
      simpa using ih
    | update s ts pr hok =>
      obtain ⟨-, -, -, rfl⟩ := updateDailyPrice_ok_iff.mp hok
      simpa using ih
    | submit s v ts tgt dir hok =>
      obtain ⟨-, -, -, rfl⟩ := submitPrediction_ok_iff.mp hok
      simpa using ih
    | confirm s ts day hok =>
      obtain ⟨-, -, -, -, rfl⟩ := confirmPrediction_ok_iff.mp hok
      intro a
      by_cases ha : a = s <;> simp [ha]
      · exact Nat.mod_lt _ U64_pos
      · exact ih a

/-- In every reachable state each recorded stake fits in uint64, below
2^64. -/
lemma reachable_stake_lt {dep : Nat} {st : State} (h : Reachable dep st) :
    ∀ a d, (st.predictions a d).stake < U64 := by
  induction h with
  | init =>
    intro a d
    simpa [initState] using U64_pos
  | step _ hs ih =>
    cases hs with
    | transfer s n hok =>
      obtain ⟨-, -, rfl⟩ := transferOwnership_ok_iff.mp hok
      simpa using ih
    | update s ts pr hok =>
      obtain ⟨-, -, -, rfl⟩ := updateDailyPrice_ok_iff.mp hok
      simpa using ih
    | submit s v ts tgt dir hok =>
      obtain ⟨hv0, hvle, -, rfl⟩ := submitPrediction_ok_iff.mp hok
      intro a d
      by_cases had : a = s ∧ d = getCurrentDay ts <;> simp [had]
      · have := U64_pos
        omega
      · exact ih a d
    | confirm s ts day hok =>
      obtain ⟨-, -, -, -, rfl⟩ := confirmPrediction_ok_iff.mp hok
      intro a d
      by_cases had : a = s ∧ d = day <;> simp [had]
      · obtain ⟨rfl, rfl⟩ := had
        exact ih a d
      · exact ih a d

/-- In every reachable state every recorded day is at most lastPriceDay:
records are only ever written at the fresh, strictly larger current day. -/
lemma reachable_recorded_le {dep : Nat} {st : State} (h : Reachable dep st) :
    ∀ d, (st.dailyPrices d).timestamp ≠ 0 → d ≤ st.lastPriceDay := by
  induction h with
  | init =>
    intro d hd
    simp [initState] at hd
  | step _ hs ih =>
    cases hs with
    | transfer s n hok =>
      obtain ⟨-, -, rfl⟩ := transferOwnership_ok_iff.mp hok
      simpa using ih
    | update s ts pr hok =>
      obtain ⟨-, -, hlt, rfl⟩ := updateDailyPrice_ok_iff.mp hok
      intro d hd
      by_cases hday : d = getCurrentDay ts
      · simp [hday]
      · simp only [hday, if_false] at hd
        have := ih d hd
        simp only []
        omega
    | submit s v ts tgt dir hok =>
      obtain ⟨-, -, -, rfl⟩ := submitPrediction_ok_iff.mp hok
      simpa using ih
    | confirm s ts day hok =>
      obtain ⟨-, -, -, -, rfl⟩ := confirmPrediction_ok_iff.mp hok
      simpa using ih

/-- In every reachable state no daily price record exists for day 0:
lastPriceDay starts at 0 and any successful write targets a strictly larger
day. -/
lemma reachable_day0_empty {dep : Nat} {st : State} (h : Reachable dep st) :
    (st.dailyPrices 0).timestamp = 0 := by
  induction h with
  | init =>
    simp [initState]
  | step _ hs ih =>
    cases hs with
    | transfer s n hok =>
      obtain ⟨-, -, rfl⟩ := transferOwnership_ok_iff.mp hok
      simpa using ih
    | update s ts pr hok =>
      obtain ⟨-, -, hlt, rfl⟩ := updateDailyPrice_ok_iff.mp hok
      have hne : (0 : Nat) ≠ getCurrentDay ts := by omega
      simpa [hne] using ih
    | submit s v ts tgt dir hok =>
      obtain ⟨-, -, -, rfl⟩ := submitPrediction_ok_iff.mp hok
      simpa using ih
    | confirm s ts day hok =>
      obtain ⟨-, -, -, -, rfl⟩ := confirmPrediction_ok_iff.mp hok
      simpa using ih

/-- In every reachable state from a nonzero deployer the owner is nonzero:
ownership is only ever reassigned to an explicitly nonzero account. -/
lemma reachable_owner_ne_zero {dep : Nat} {st : State} (hdep : dep ≠ 0)
    (h : Reachable dep st) : st.owner ≠ 0 := by
  induction h with
  | init =>
    simpa [initState] using hdep
  | step _ hs ih =>
    cases hs with
    | transfer s n hok =>
      obtain ⟨-, hn, rfl⟩ := transferOwnership_ok_iff.mp hok
      simpa using hn
    | update s ts pr hok =>
      obtain ⟨-, -, -, rfl⟩ := updateDailyPrice_ok_iff.mp hok
      simpa using ih
    | submit s v ts tgt dir hok =>
      obtain ⟨-, -, -, rfl⟩ := submitPrediction_ok_iff.mp hok
      simpa using ih
    | confirm s ts day hok =>
      obtain ⟨-, -, -, -, rfl⟩ := confirmPrediction_ok_iff.mp hok
      simpa using ih

lemma s1_ok : updateDailyPrice s0 1 86400 10 = .ok s1 := rfl

lemma s2_ok : submitPrediction s1 2 (U64 - 1) 86400 5 1 = .ok s2 := rfl

lemma s3_ok : confirmPrediction s2 2 172800 1 = .ok s3 := rfl

lemma s4_ok : updateDailyPrice s3 1 172800 10 = .ok s4 := rfl

lemma s5_ok : submitPrediction s4 2 (U64 - 1) 172800 5 1 = .ok s5 := rfl

lemma s6_ok : confirmPrediction s5 2 259200 2 = .ok s6 := rfl

lemma s5_reachable : Reachable 1 s5 :=
  (((((Reachable.init.step (Step.update 1 86400 10 s1_ok)).step
    (Step.submit 2 (U64 - 1) 86400 5 1 s2_ok)).step
    (Step.confirm 2 172800 1 s3_ok)).step
    (Step.update 1 172800 10 s4_ok)).step
    (Step.submit 2 (U64 - 1) 172800 5 1 s5_ok))

lemma s5_points : s5.points 2 = U64 - 1 := by decide

lemma s6_points : s6.points 2 = U64 - 2 := by decide

/-- C1 (amended): when confirmPrediction passes all four eligibility checks
and the points balance is a valid euint64 value, then with direction 1 and
reference strictly above the target, or direction 2 and reference strictly
below the target, lastResult becomes true and points becomes the old
balance plus the stake reduced modulo 2^64 (so it grows by exactly the
stake whenever the sum stays below 2^64); with reference equal to the
target, under either direction, lastResult becomes false and points is
unchanged. -/
theorem claim_C1 : ∀ (st : State) (sender ts day : Nat),
    (st.predictions sender day).stake ≠ 0 →
    (st.predictions sender day).claimed = false →
    day < getCurrentDay ts →
    (st.dailyPrices day).timestamp ≠ 0 →
    st.points sender < U64 →
    ∃ st', confirmPrediction st sender ts day = .ok st' ∧
      ((st.predictions sender day).direction = 1 →
        (st.predictions sender day).price < (st.dailyPrices day).price →
        st'.lastResult sender = true ∧
        st'.points sender = (st.points sender + (st.predictions sender day).stake) % U64) ∧
      ((st.predictions sender day).direction = 2 →
        (st.dailyPrices day).price < (st.predictions sender day).price →
        st'.lastResult sender = true ∧
        st'.points sender = (st.points sender + (st.predictions sender day).stake) % U64) ∧
      ((st.dailyPrices day).price = (st.predictions sender day).price →
        st'.lastResult sender = false ∧ st'.points sender = st.points sender) := by
  intro st sender ts day h1 h2 h3 h4 h5
  refine ⟨_, confirmPrediction_ok_iff.mpr ⟨h1, h2, h3, h4, rfl⟩, ?_, ?_, ?_⟩
  · intro hdir hlt
    constructor
    · simp [checkPrediction, hdir, hlt]
    · simp [checkPrediction, calculateReward, hdir, hlt]
  · intro hdir hlt
    constructor
    · simp [checkPrediction, hdir, hlt]
    · simp [checkPrediction, calculateReward, hdir, hlt]
  · intro heq
    constructor
    · simp [checkPrediction, heq]
    · simp [checkPrediction, calculateReward, heq, Nat.mod_eq_of_lt h5]

/-- C1 witness: account 2 confirms its winning day-1 forecast of the
concrete run at day 2 and is credited its stake. -/
theorem claim_C1_witness :
    ∃ st', confirmPrediction s2 2 172800 1 = .ok st' ∧
      ((s2.predictions 2 1).direction = 1 →
        (s2.predictions 2 1).price < (s2.dailyPrices 1).price →
        st'.lastResult 2 = true ∧
        st'.points 2 = (s2.points 2 + (s2.predictions 2 1).stake) % U64) ∧
      ((s2.predictions 2 1).direction = 2 →
        (s2.dailyPrices 1).price < (s2.predictions 2 1).price →
        st'.lastResult 2 = true ∧
        st'.points 2 = (s2.points 2 + (s2.predictions 2 1).stake) % U64) ∧
      ((s2.dailyPrices 1).price = (s2.predictions 2 1).price →
        st'.lastResult 2 = false ∧ st'.points 2 = s2.points 2) :=
  claim_C1 s2 2 172800 1 (by decide) (by decide) (by decide) (by decide) (by decide)

/-- C1 counterexample: in the reachable state s5 account 2 holds points
2^64 - 1 and an eligible winning forecast (direction 1, reference 10 above
target 5) with stake 2^64 - 1; the confirming call succeeds and sets
lastResult true, but the euint64 addition wraps, so points does not
increase by exactly the stake. -/
theorem claim_C1_counterexample :
    (s5.predictions 2 2).direction = 1 ∧
    (s5.predictions 2 2).price < (s5.dailyPrices 2).price ∧
    (s5.predictions 2 2).stake ≠ 0 ∧
    (s5.predictions 2 2).claimed = false ∧
    (2 : Nat) < getCurrentDay 259200 ∧
    (s5.dailyPrices 2).timestamp ≠ 0 ∧
    confirmPrediction s5 2 259200 2 = .ok s6 ∧
    s6.lastResult 2 = true ∧
    s6.points 2 ≠ s5.points 2 + (s5.predictions 2 2).stake :=
  ⟨rfl, by decide, by decide, rfl, by decide, by decide, rfl, rfl, by decide⟩

/-- C2: for a forecast with nonzero stake already marked claimed, every
confirmPrediction call fails with PredictionAlreadyClaimed and produces no
successor state, so the rewards ledger is untouched and no second reward is
ever credited. -/
theorem claim_C2 : ∀ (st : State) (sender ts day : Nat),
    (st.predictions sender day).stake ≠ 0 →
    (st.predictions sender day).claimed = true →
    confirmPrediction st sender ts day = .error .PredictionAlreadyClaimed ∧
    ∀ st', confirmPrediction st sender ts day ≠ .ok st' := by
  intro st sender ts day h1 h2
  have herr : confirmPrediction st sender ts day = .error .PredictionAlreadyClaimed := by
    unfold confirmPrediction
    rw [if_neg h1, if_pos h2]
  refine ⟨herr, fun st' hok => ?_⟩
  rw [herr] at hok
  exact Except.noConfusion hok

/-- C2 witness: in the concrete run, confirming the already-settled day-1
forecast a second time fails with PredictionAlreadyClaimed. -/
theorem claim_C2_witness :
    confirmPrediction s3 2 172800 1 = .error .PredictionAlreadyClaimed ∧
    ∀ st', confirmPrediction s3 2 172800 1 ≠ .ok st' :=
  claim_C2 s3 2 172800 1 (by decide) (by decide)

/-- C4: for an existing unclaimed forecast, confirmPrediction fails with
ConfirmationTooEarly whenever the day has not strictly elapsed, whatever
the price registry holds, and fails with PriceNotAvailable whenever the day
has elapsed but no reference record exists for it. -/
theorem claim_C4 : ∀ (st : State) (sender ts day : Nat),
    (st.predictions sender day).stake ≠ 0 →
    (st.predictions sender day).claimed = false →
    (getCurrentDay ts ≤ day →
      confirmPrediction st sender ts day = .error .ConfirmationTooEarly) ∧
    (day < getCurrentDay ts → (st.dailyPrices day).timestamp = 0 →
      confirmPrediction st sender ts day = .error .PriceNotAvailable) := by
  intro st sender ts day h1 h2
  constructor
  · intro h3
    unfold confirmPrediction
    rw [if_neg h1, if_neg (by simp [h2]), if_pos h3]
  · intro h3 h4
    unfold confirmPrediction
    rw [if_neg h1, if_neg (by simp [h2]), if_neg (by omega), if_pos h4]

/-- C4 witness: confirming the day-1 forecast during day 1 fails with
ConfirmationTooEarly, and confirming a day-1 forecast at day 2 with an
empty price registry fails with PriceNotAvailable. -/
theorem claim_C4_witness :
    confirmPrediction s2 2 86400 1 = .error .ConfirmationTooEarly ∧
    confirmPrediction demoNoPrice 2 172800 1 = .error .PriceNotAvailable :=
  ⟨(claim_C4 s2 2 86400 1 (by decide) (by decide)).1 (by decide),
   (claim_C4 demoNoPrice 2 172800 1 (by decide) (by decide)).2 (by decide) (by decide)⟩

/-- C5: with a valid stake, submitPrediction fails with PredictionExists
whenever a forecast with nonzero stake already occupies (sender, current
day) — the claimed flag plays no part, so this holds after settlement too —
and every successful submission starts from an empty slot and leaves a
nonzero stake behind, so a given (account, period) slot is filled at most
once. -/
theorem claim_C5 : ∀ (st : State) (sender v ts tgt dir : Nat),
    v ≠ 0 → v ≤ U64 - 1 →
    ((st.predictions sender (getCurrentDay ts)).stake ≠ 0 →
      submitPrediction st sender v ts tgt dir = .error .PredictionExists) ∧
    (∀ st', submitPrediction st sender v ts tgt dir = .ok st' →
      (st.predictions sender (getCurrentDay ts)).stake = 0 ∧
      (st'.predictions sender (getCurrentDay ts)).stake ≠ 0) := by
  intro st sender v ts tgt dir hv hvle
  constructor
  · intro hex
    unfold submitPrediction
    rw [if_neg hv, if_neg (by omega), if_pos hex]
  · intro st' hok
    obtain ⟨-, -, h0, rfl⟩ := submitPrediction_ok_iff.mp hok
    refine ⟨h0, ?_⟩
    simpa using hv

/-- C5 witness: resubmitting for day 1 after the day-1 forecast was already
settled still fails with PredictionExists. -/
theorem claim_C5_witness :
    submitPrediction s3 2 5 86400 7 1 = .error .PredictionExists :=
  (claim_C5 s3 2 5 86400 7 1 (by decide) (by decide)).1 (by decide)

/-- Points balances after a successful confirmPrediction: only the caller
moves, by the oblivious reward modulo 2^64. -/
lemma confirmPrediction_points {st st' : State} {s ts day : Nat}
    (hok : confirmPrediction st s ts day = .ok st') :
    ∀ a, st'.points a =
      if a = s then
        (st.points s +
          calculateReward (st.predictions s day).stake
            (checkPrediction (st.predictions s day) (st.dailyPrices day).price)) % U64
      else st.points a := by
  obtain ⟨-, -, -, -, rfl⟩ := confirmPrediction_ok_iff.mp hok
  intro a
  rfl

/-- C3: a successful updateDailyPrice from any reachable state happens only
at a current day with no existing record and strictly beyond lastPriceDay,
and it moves lastPriceDay strictly up to that day — so each day is recorded
at most once; and when the current day has not advanced past lastPriceDay,
an otherwise valid owner call fails with PriceAlreadyUpdated. -/
theorem claim_C3 :
    (∀ (dep : Nat) (st : State) (s ts pr : Nat) (st' : State),
      Reachable dep st →
      updateDailyPrice st s ts pr = .ok st' →
      (st.dailyPrices (getCurrentDay ts)).timestamp = 0 ∧
      st.lastPriceDay < getCurrentDay ts ∧
      st'.lastPriceDay = getCurrentDay ts ∧
      st.lastPriceDay < st'.lastPriceDay) ∧
    (∀ (st : State) (s ts pr : Nat),
      s = st.owner → pr ≠ 0 → getCurrentDay ts ≤ st.lastPriceDay →
      updateDailyPrice st s ts pr = .error .PriceAlreadyUpdated) := by
  constructor
  · intro dep st s ts pr st' hr hok
    obtain ⟨-, -, hlt, rfl⟩ := updateDailyPrice_ok_iff.mp hok
    refine ⟨?_, hlt, rfl, ?_⟩
    · by_contra hne
      have := reachable_recorded_le hr (getCurrentDay ts) hne
      omega
    · simpa using hlt
  · intro st s ts pr hs hpr hle
    unfold updateDailyPrice
    rw [if_neg (by simp [hs]), if_neg hpr, if_pos hle]

/-- C3 witness: the first recording at day 1 succeeds and advances
lastPriceDay from 0 to 1, and a second recording during the same day fails
with PriceAlreadyUpdated. -/
theorem claim_C3_witness :
    ((s0.dailyPrices (getCurrentDay 86400)).timestamp = 0 ∧
      s0.lastPriceDay < getCurrentDay 86400 ∧
      s1.lastPriceDay = getCurrentDay 86400 ∧
      s0.lastPriceDay < s1.lastPriceDay) ∧
    updateDailyPrice s1 1 86400 10 = .error .PriceAlreadyUpdated :=
  ⟨claim_C3.1 1 s0 1 86400 10 s1 Reachable.init s1_ok,
   claim_C3.2 s1 1 86400 10 (by decide) (by decide) (by decide)⟩

/-- C6 (amended): along every invocation from a reachable state, each
account's points balance either does not decrease, or wraps modulo 2^64
while being credited the stake of an existing forecast: a decrease d
satisfies new + 2^64 = old + stake exactly.  In particular points is
monotonically non-decreasing as long as the running total stays below
2^64. -/
theorem claim_C6 : ∀ (dep : Nat) (st st' : State) (a : Nat),
    Reachable dep st → Step st st' →
    st.points a ≤ st'.points a ∨
    ∃ s d, (st.predictions s d).stake ≠ 0 ∧
      st'.points a + U64 = st.points a + (st.predictions s d).stake := by
  intro dep st st' a hr hs
  cases hs with
  | transfer s n hok =>
    obtain ⟨-, -, rfl⟩ := transferOwnership_ok_iff.mp hok
    left
    simp
  | update s ts pr hok =>
    obtain ⟨-, -, -, rfl⟩ := updateDailyPrice_ok_iff.mp hok
    left
    simp
  | submit s v ts tgt dir hok =>
    obtain ⟨-, -, -, rfl⟩ := submitPrediction_ok_iff.mp hok
    left
    simp
  | confirm s ts day hok =>
    have hst := (confirmPrediction_ok_iff.mp hok).1
    have hp := reachable_points_lt hr s
    have hstk := reachable_stake_lt hr s day
    rw [confirmPrediction_points hok a]
    by_cases ha : a = s
    · rw [if_pos ha, ha]
      by_cases hw : checkPrediction (st.predictions s day) (st.dailyPrices day).price = true
      · unfold calculateReward
        rw [if_pos hw]
        by_cases hsum : st.points s + (st.predictions s day).stake < U64
        · left
          rw [Nat.mod_eq_of_lt hsum]
          exact Nat.le_add_right _ _
        · right
          refine ⟨s, day, hst, ?_⟩
          rw [Nat.mod_eq_sub_mod (by omega), Nat.mod_eq_of_lt (by omega)]
          omega
      · left
        unfold calculateReward
        rw [if_neg hw, Nat.add_zero, Nat.mod_eq_of_lt hp]
    · rw [if_neg ha]
      left
      exact Nat.le_refl _

/-- C6 witness: recording a daily price leaves account 2's balance
unchanged, the non-decreasing branch of the amended statement. -/
theorem claim_C6_witness :
    s0.points 2 ≤ s1.points 2 ∨
    ∃ s d, (s0.predictions s d).stake ≠ 0 ∧
      s1.points 2 + U64 = s0.points 2 + (s0.predictions s d).stake :=
  claim_C6 1 s0 s1 2 Reachable.init (Step.update 1 86400 10 s1_ok)

/-- C6 counterexample: in the reachable run s0, ..., s5, s6 account 2 wins
twice with stake 2^64 - 1; the second winning settlement, the step from s5
to s6, makes the euint64 points balance wrap and strictly decrease, so
points is not monotonically non-decreasing across engine invocations. -/
theorem claim_C6_counterexample :
    Reachable 1 s5 ∧ Step s5 s6 ∧ s6.points 2 < s5.points 2 :=
  ⟨s5_reachable, Step.confirm 2 259200 2 s6_ok, by decide⟩

/-- C7: each of the four mutating entry points either succeeds or fails
with one of its named errors; in this embedding a failing call returns a
bare error and no successor state, mirroring the all-or-nothing rollback of
a reverted transaction, so no error path commits a partial state change. -/
theorem claim_C7 :
    (∀ (st : State) (s n : Nat),
      (∃ st', transferOwnership st s n = .ok st') ∨
      transferOwnership st s n = .error .OnlyOwner ∨
      transferOwnership st s n = .error .InvalidOwner) ∧
    (∀ (st : State) (s ts pr : Nat),
      (∃ st', updateDailyPrice st s ts pr = .ok st') ∨
      updateDailyPrice st s ts pr = .error .OnlyOwner ∨
      updateDailyPrice st s ts pr = .error .InvalidPrice ∨
      updateDailyPrice st s ts pr = .error .PriceAlreadyUpdated) ∧
    (∀ (st : State) (s v ts tgt dir : Nat),
      (∃ st', submitPrediction st s v ts tgt dir = .ok st') ∨
      submitPrediction st s v ts tgt dir = .error .StakeRequired ∨
      submitPrediction st s v ts tgt dir = .error .StakeTooLarge ∨
      submitPrediction st s v ts tgt dir = .error .PredictionExists) ∧
    (∀ (st : State) (s ts day : Nat),
      (∃ st', confirmPrediction st s ts day = .ok st') ∨
      confirmPrediction st s ts day = .error .PredictionMissing ∨
      confirmPrediction st s ts day = .error .PredictionAlreadyClaimed ∨
      confirmPrediction st s ts day = .error .ConfirmationTooEarly ∨
      confirmPrediction st s ts day = .error .PriceNotAvailable) := by
  refine ⟨?_, ?_, ?_, ?_⟩
  · intro st s n
    unfold transferOwnership
    split
    · exact Or.inr (Or.inl rfl)
    · split
      · exact Or.inr (Or.inr rfl)
      · exact Or.inl ⟨_, rfl⟩
  · intro st s ts pr
    unfold updateDailyPrice
    split
    · exact Or.inr (Or.inl rfl)
    · split
      · exact Or.inr (Or.inr (Or.inl rfl))
      · split
        · exact Or.inr (Or.inr (Or.inr rfl))
        · exact Or.inl ⟨_, rfl⟩
  · intro st s v ts tgt dir
    unfold submitPrediction
    split
    · exact Or.inr (Or.inl rfl)
    · split
      · exact Or.inr (Or.inr (Or.inl rfl))
      · split
        · exact Or.inr (Or.inr (Or.inr rfl))
        · exact Or.inl ⟨_, rfl⟩
  · intro st s ts day
    unfold confirmPrediction
    split
    · exact Or.inr (Or.inl rfl)
    · split
      · exact Or.inr (Or.inr (Or.inl rfl))
      · split
        · exact Or.inr (Or.inr (Or.inr (Or.inl rfl)))
        · split
          · exact Or.inr (Or.inr (Or.inr (Or.inr rfl)))
          · exact Or.inl ⟨_, rfl⟩

/-- C8: the owner starts as the deployer and is nonzero in every state
reachable from a nonzero deployer; transferring to the null account fails
with InvalidOwner, a non-owner caller of transferOwnership or
updateDailyPrice fails with OnlyOwner, and a successful transfer installs
exactly the requested new owner. -/
theorem claim_C8 :
    (∀ dep : Nat, (initState dep).owner = dep) ∧
    (∀ (dep : Nat) (st : State), dep ≠ 0 → Reachable dep st → st.owner ≠ 0) ∧
    (∀ st : State, transferOwnership st st.owner 0 = .error .InvalidOwner) ∧
    (∀ (st : State) (s n : Nat), s ≠ st.owner →
      transferOwnership st s n = .error .OnlyOwner) ∧
    (∀ (st : State) (s ts pr : Nat), s ≠ st.owner →
      updateDailyPrice st s ts pr = .error .OnlyOwner) ∧
    (∀ (st : State) (s n : Nat) (st' : State),
      transferOwnership st s n = .ok st' → st'.owner = n) := by
  refine ⟨fun dep => rfl, fun dep st hd hr => reachable_owner_ne_zero hd hr,
    ?_, ?_, ?_, ?_⟩
  · intro st
    unfold transferOwnership
    rw [if_neg (by simp), if_pos rfl]
  · intro st s n hs
    unfold transferOwnership
    rw [if_pos hs]
  · intro st s ts pr hs
    unfold updateDailyPrice
    rw [if_pos hs]
  · intro st s n st' hok
    obtain ⟨-, -, rfl⟩ := transferOwnership_ok_iff.mp hok
    rfl

/-- C8 witness: concrete instances of every conjunct at deployment by
account 1. -/
theorem claim_C8_witness :
    (initState 1).owner = 1 ∧
    s0.owner ≠ 0 ∧
    transferOwnership s0 s0.owner 0 = .error .InvalidOwner ∧
    transferOwnership s0 2 3 = .error .OnlyOwner ∧
    updateDailyPrice s0 2 86400 10 = .error .OnlyOwner ∧
    (afterOk (transferOwnership s0 1 5) s0).owner = 5 :=
  ⟨claim_C8.1 1, claim_C8.2.1 1 s0 (by decide) Reachable.init,
   claim_C8.2.2.1 s0, claim_C8.2.2.2.1 s0 2 3 (by decide),
   claim_C8.2.2.2.2.1 s0 2 86400 10 (by decide),
   claim_C8.2.2.2.2.2 s0 1 5 _ rfl⟩

/-- C9: a successful confirmPrediction touches only the caller's points
entry, the caller's lastResult entry and the claimed flag of the confirmed
forecast; owner, lastPriceDay, every daily price record, every other
forecast, the confirmed forecast's price, direction, stake and submittedAt
fields, and every other account's ledger entries are unchanged. -/
theorem claim_C9 : ∀ (st : State) (sender ts day : Nat) (st' : State),
    confirmPrediction st sender ts day = .ok st' →
    st'.owner = st.owner ∧
    st'.lastPriceDay = st.lastPriceDay ∧
    st'.dailyPrices = st.dailyPrices ∧
    (∀ a d, ¬(a = sender ∧ d = day) → st'.predictions a d = st.predictions a d) ∧
    (st'.predictions sender day).price = (st.predictions sender day).price ∧
    (st'.predictions sender day).direction = (st.predictions sender day).direction ∧
    (st'.predictions sender day).stake = (st.predictions sender day).stake ∧
    (st'.predictions sender day).submittedAt = (st.predictions sender day).submittedAt ∧
    (st'.predictions sender day).claimed = true ∧
    (∀ a, a ≠ sender → st'.points a = st.points a) ∧
    (∀ a, a ≠ sender → st'.lastResult a = st.lastResult a) := by
  intro st sender ts day st' hok
  obtain ⟨-, -, -, -, rfl⟩ := confirmPrediction_ok_iff.mp hok
  refine ⟨rfl, rfl, rfl, ?_, by simp, by simp, by simp, by simp, by simp, ?_, ?_⟩
  · intro a d had
    simp [had]
  · intro a ha
    simp [ha]
  · intro a ha
    simp [ha]

/-- C9 witness: the winning day-2 confirmation of the concrete run changes
neither the owner nor any daily price record nor the forecast's stake. -/
theorem claim_C9_witness :
    s6.owner = s5.owner ∧
    s6.dailyPrices = s5.dailyPrices ∧
    (s6.predictions 2 2).stake = (s5.predictions 2 2).stake :=
  ⟨(claim_C9 s5 2 259200 2 s6 s6_ok).1,
   (claim_C9 s5 2 259200 2 s6 s6_ok).2.2.1,
   (claim_C9 s5 2 259200 2 s6 s6_ok).2.2.2.2.2.2.1⟩

/-- C10: lastPriceDay starts at 0, so during day 0 an otherwise valid
owner call of updateDailyPrice fails with PriceAlreadyUpdated and no call
whatsoever can succeed; hence no reachable state records a price for day 0,
and once day 0 has elapsed, confirming any forecast for day 0 fails with
PriceNotAvailable. -/
theorem claim_C10 :
    (∀ dep : Nat, (initState dep).lastPriceDay = 0) ∧
    (∀ (st : State) (s ts pr : Nat), ts < secondsPerDay → s = st.owner → pr ≠ 0 →
      updateDailyPrice st s ts pr = .error .PriceAlreadyUpdated) ∧
    (∀ (st : State) (s ts pr : Nat) (st' : State), ts < secondsPerDay →
      updateDailyPrice st s ts pr ≠ .ok st') ∧
    (∀ (dep : Nat) (st : State), Reachable dep st → (st.dailyPrices 0).timestamp = 0) ∧
    (∀ (dep : Nat) (st : State) (s ts : Nat), Reachable dep st →
      (st.predictions s 0).stake ≠ 0 → (st.predictions s 0).claimed = false →
      0 < getCurrentDay ts →
      confirmPrediction st s ts 0 = .error .PriceNotAvailable) := by
  refine ⟨fun dep => rfl, ?_, ?_, fun dep st hr => reachable_day0_empty hr, ?_⟩
  · intro st s ts pr hts hs hpr
    have hday : getCurrentDay ts = 0 := Nat.div_eq_of_lt hts
    unfold updateDailyPrice
    rw [if_neg (by simp [hs]), if_neg hpr, if_pos (by omega)]
  · intro st s ts pr st' hts hok
    obtain ⟨-, -, hlt, -⟩ := updateDailyPrice_ok_iff.mp hok
    have hday : getCurrentDay ts = 0 := Nat.div_eq_of_lt hts
    omega
  · intro dep st s ts hr h1 h2 h3
    have h0 := reachable_day0_empty hr
    unfold confirmPrediction
    rw [if_neg h1, if_neg (by simp [h2]), if_neg (by omega), if_pos h0]

lemma demoDay0_ok : submitPrediction s0 2 7 0 5 1 = .ok demoDay0 := rfl

lemma demoDay0_reachable : Reachable 1 demoDay0 :=
  Reachable.init.step (Step.submit 2 7 0 5 1 demoDay0_ok)

/-- C10 witness: during day 0 the owner's recording attempt fails with
PriceAlreadyUpdated, the initial state has no day-0 record, and confirming
a day-0 forecast at day 1 fails with PriceNotAvailable. -/
theorem claim_C10_witness :
    (initState 1).lastPriceDay = 0 ∧
    updateDailyPrice s0 1 3600 10 = .error .PriceAlreadyUpdated ∧
    updateDailyPrice s0 1 3600 10 ≠ .ok s1 ∧
    (s0.dailyPrices 0).timestamp = 0 ∧
    confirmPrediction demoDay0 2 86400 0 = .error .PriceNotAvailable :=
  ⟨claim_C10.1 1,
   claim_C10.2.1 s0 1 3600 10 (by decide) (by decide) (by decide),
   claim_C10.2.2.1 s0 1 3600 10 s1 (by decide),
   claim_C10.2.2.2.1 1 s0 Reachable.init,
   claim_C10.2.2.2.2 1 demoDay0 2 86400 demoDay0_reachable (by decide) (by decide) (by decide)⟩

end ConfidentialCast
